import Mathlib

/-!
Verification of the autoregressive token-generation engine in
`app/src/main/cpp/llama_jni.cpp` (functions `loadModel`, `generate`,
`generateStreaming`, `cancelGeneration`, `unloadModel`, `isModelLoaded`,
`getLoadProgress`, `isGenerating`).

The engine is embedded shallowly:
* `S` models the process-wide globals `g_model`, `g_ctx`, `g_is_generating`,
  `g_cancel_generation`, `g_load_progress` (the float progress is modelled
  as a rational; only 0 and 1 are ever compared).
* `Env` models the external llama.cpp calls and the concurrent world:
  `tokenize` (negative count becomes `none`), `decodeBatch`
  (`llama_decode`, success as a Bool of the submitted batch), `sample`
  (the whole sampler chain `top_p ∘ temp ∘ dist(seed)`, a function of the
  seed and of the evaluated-token history that determines the logits;
  temperature and top-p are absorbed into the function), `isEog`,
  `tokenPiece` (`llama_token_to_piece`; the `n <= 0` case is the empty
  list), `cancelled i` (the value of the atomic cancel flag observed at
  the poll of loop step `i` — concurrent `cancelGeneration` writes are
  modelled by this function), `sinkFails i` (a Java exception raised by
  the `onToken` callback at step `i`), and `callbackOk` (`GetMethodID`).
* Text is `List Char`; `cFind`/`cRfind` reproduce `std::string::find`
  (with its start position in size_t arithmetic, `sizetSub`) and
  `std::string::rfind`, including the behaviour on empty patterns.
* Batches follow `batch_add_token`: each entry records token, position,
  `n_seq_id = 1`, `seq_id[0] = 0`, and the logits flag.
The two generation loops return instrumented traces (accumulated text,
termination reason, the step indices that began, the singleton batches
submitted, and for streaming the fragments delivered to the sink paired
with the accumulated text at the moment of delivery).
-/

namespace NovaLlama

/-- `a - b` in C++ `size_t` arithmetic (64-bit wrap), valid whenever
`b ≤ a + 2^64`, which covers every use below. -/
def sizetSub (a b : Nat) : Nat := (a + 2 ^ 64 - b) % 2 ^ 64

/-- Does `pat` occur in `s` starting at index `i`?  Mirrors the C++
convention that an occurrence needs `i + pat.size ≤ s.size`, an empty
pattern matching at every `i ≤ s.size`. -/
def cMatchAt (s pat : List Char) (i : Nat) : Bool :=
  decide (i ≤ s.length) && decide ((s.drop i).take pat.length = pat)

/-- `std::string::find(pat, start)`: smallest occurrence index `≥ start`,
`none` for `npos`. -/
def cFind (s pat : List Char) (start : Nat) : Option Nat :=
  (List.range (s.length + 1)).find? (fun i => decide (start ≤ i) && cMatchAt s pat i)

/-- `std::string::rfind(pat)`: largest occurrence index, `none` for `npos`. -/
def cRfind (s pat : List Char) : Option Nat :=
  ((List.range (s.length + 1)).filter (fun i => cMatchAt s pat i)).getLast?

/-- The stop-string test of the buffering `generate` (llama_jni.cpp:218-219):
`result.length() >= stop.length()` and then
`result.find(stop, result.length() - stop.length() - 1) != npos`, the start
position computed in size_t arithmetic (it wraps around when the lengths
are equal). -/
def stopHitB (acc st : List Char) : Bool :=
  decide (st.length ≤ acc.length) &&
    (cFind acc st (sizetSub acc.length (st.length + 1))).isSome

/-- First configured stop string that `stopHitB` reports, in the order
supplied (lines 217-228 break at the first hit). -/
def firstStopB (stops : List (List Char)) (acc : List Char) : Option (List Char) :=
  stops.find? (fun st => stopHitB acc st)

/-- Truncation on a hit (lines 220-223): `pos = result.rfind(stop)` and
`result = result.substr(0, pos)`. -/
def truncStopB (acc st : List Char) : List Char :=
  match cRfind acc st with
  | some p => acc.take p
  | none => acc

/-- The stop-string test of `generateStreaming` (lines 359-365):
`accumulated.rfind(stop) != npos` for some configured stop, i.e. plain
containment, iterated in order with a break at the first hit. -/
def stopFoundS (stops : List (List Char)) (acc : List Char) : Bool :=
  stops.any (fun st => (cRfind acc st).isSome)

/-- One slot of a `llama_batch` as filled by `batch_add_token`
(llama_jni.cpp:33-42): token id, position, `n_seq_id = 1`,
`seq_id[0] = 0`, and the logits flag. -/
structure BatchEntry where
  token : Nat
  pos : Nat
  nSeq : Nat
  seq0 : Nat
  logits : Bool
deriving DecidableEq

/-- `batch_add_token(batch, id, pos, logits)`: appends one slot with
`n_seq_id = 1` and `seq_id[0] = 0`. -/
def batchAddToken (b : List BatchEntry) (id pos : Nat) (logits : Bool) : List BatchEntry :=
  b ++ [⟨id, pos, 1, 0, logits⟩]

/-- The prompt loop `for i in 0..n: batch_add_token(batch, tokens[i], i, false)`
(lines 170-172 and 314-316), positions counting up from `startPos`. -/
def addPromptTokens (toks : List Nat) (startPos : Nat) (b : List BatchEntry) : List BatchEntry :=
  match toks with
  | [] => b
  | t :: rest => addPromptTokens rest (startPos + 1) (batchAddToken b t startPos false)

/-- `batch.logits[batch.n_tokens - 1] = true` (lines 173 and 317): set the
logits flag of the final slot.  (On an empty batch the C++ write is out of
bounds; the model makes it a no-op, and every theorem about prompt batches
assumes a non-empty prompt.) -/
def setLastLogitsTrue : List BatchEntry → List BatchEntry
  | [] => []
  | [e] => [{ e with logits := true }]
  | e :: rest => e :: setLastLogitsTrue rest

/-- The full-prompt batch of lines 169-173 / 313-317. -/
def promptBatch (toks : List Nat) : List BatchEntry :=
  setLastLogitsTrue (addPromptTokens toks 0 [])

/-- The singleton batch of lines 233-234 / 390-391:
`llama_batch_init(1,0,1)` then `batch_add_token(single, new_token, n_cur, true)`. -/
def singleBatch (id pos : Nat) : List BatchEntry :=
  batchAddToken [] id pos true

/-- The seed of `llama_sampler_init_dist(42)` (lines 187 and 333): a
hard-coded constant, identical in both generation variants. -/
def samplerSeed : Nat := 42

/-- The external llama.cpp calls and the concurrent world, as seen by one
generation request. -/
structure Env where
  tokenize : List Char → Option (List Nat)
  decodeBatch : List BatchEntry → Bool
  sample : Nat → List Nat → Nat
  isEog : Nat → Bool
  tokenPiece : Nat → List Char
  cancelled : Nat → Bool
  sinkFails : Nat → Bool
  callbackOk : Bool

/-- The process-wide globals of llama_jni.cpp. -/
structure S where
  model : Bool
  ctx : Bool
  generating : Bool
  cancelFlag : Bool
  progress : ℚ
deriving DecidableEq

/-- `isModelLoaded` (lines 434-439): both handles present. -/
def isModelLoaded (s : S) : Bool := s.model && s.ctx

/-- `getLoadProgress` (lines 441-446). -/
def getLoadProgress (s : S) : ℚ := s.progress

/-- `isGenerating` (lines 448-453). -/
def isGenerating (s : S) : Bool := s.generating

/-- `cancelGeneration` (lines 406-412): store true into the flag. -/
def cancelGeneration (s : S) : S := { s with cancelFlag := true }

/-- `unloadModel` (lines 414-432): free context then model, reset the
progress to 0; nothing else is touched. -/
def unloadModel (s : S) : S :=
  { s with model := false, ctx := false, progress := 0 }

/-- Outcome of one `loadModel` call: whether `GetStringUTFChars`
succeeded, the sequence of fractions the progress callback reported
during weight loading, whether `llama_model_load_from_file` succeeded,
and whether `llama_init_from_model` succeeded. -/
structure LoadOutcome where
  pathOk : Bool
  reports : List ℚ
  weightsOk : Bool
  ctxOk : Bool
deriving DecidableEq

/-- The value held by `g_load_progress` after `store(0)` followed by one
`store` per callback report: the last report, 0 when there was none. -/
def lastReport (l : List ℚ) : ℚ := l.foldl (fun _ r => r) 0

/-- `loadModel` (lines 49-113): free any existing context and model; on a
path failure return false (progress untouched); otherwise store 0 into
progress, load weights (the callback overwrites progress with each
report); on weight failure return false; otherwise create the context;
on context failure free the model and return false; on success set
progress to 1 and return true. -/
def loadModel (s : S) (o : LoadOutcome) : Bool × S :=
  let s0 : S := { s with model := false, ctx := false }
  if o.pathOk = false then (false, s0)
  else
    let s1 : S := { s0 with progress := lastReport o.reports }
    if o.weightsOk = false then (false, s1)
    else
      let s2 : S := { s1 with model := true }
      if o.ctxOk = false then (false, { s2 with model := false })
      else (true, { s2 with ctx := true, progress := 1 })

/-- Why a generation loop stopped. -/
inductive Reason where
  | budget
  | cancelled
  | eog
  | stopMatch
  | evalFail
  | sinkFail
deriving DecidableEq

/-- Instrumented trace of the buffering loop: final accumulated text (the
value returned), the termination reason, the loop indices of the steps
that began (polled the cancel flag as false and sampled a token), and the
(token, position) of every singleton batch submitted to `llama_decode`. -/
structure BTrace where
  text : List Char
  reason : Reason
  steps : List Nat
  evals : List (Nat × Nat)
deriving DecidableEq

/-- The generation loop of `generate` (llama_jni.cpp:193-242).  Arguments:
remaining budget (`maxTokens - i`), the loop index `i`, the history of
evaluated tokens (prompt plus generated; its length is `n_cur`), and the
accumulated `result`.  Each iteration polls the cancel flag, samples via
the chain seeded with `samplerSeed`, checks end-of-generation, decodes the
token to a piece, when the piece is non-empty appends it and runs the
stop-string check (truncating at the last occurrence on a hit), and
finally submits the singleton batch. -/
def bLoop (env : Env) (stops : List (List Char)) :
    Nat → Nat → List Nat → List Char → BTrace
  | 0, _, _, acc => ⟨acc, .budget, [], []⟩
  | fuel + 1, i, hist, acc =>
    if env.cancelled i then ⟨acc, .cancelled, [], []⟩
    else
      let t := env.sample samplerSeed hist
      if env.isEog t then ⟨acc, .eog, [i], []⟩
      else
        let piece := env.tokenPiece t
        let acc2 := if piece.isEmpty then acc else acc ++ piece
        match if piece.isEmpty then none else firstStopB stops acc2 with
        | some st => ⟨truncStopB acc2 st, .stopMatch, [i], []⟩
        | none =>
          if env.decodeBatch (singleBatch t hist.length) then
            let rest := bLoop env stops fuel (i + 1) (hist ++ [t]) acc2
            ⟨rest.text, rest.reason, i :: rest.steps, (t, hist.length) :: rest.evals⟩
          else ⟨acc2, .evalFail, [i], [(t, hist.length)]⟩

/-- Instrumented trace of the streaming loop: the accumulated text, the
fragments delivered to the sink in order (each paired with the
accumulated text at the moment of delivery, which includes the fragment),
the termination reason, the steps that began, and the singleton batches
submitted. -/
structure STrace where
  text : List Char
  delivered : List (List Char × List Char)
  reason : Reason
  steps : List Nat
  evals : List (Nat × Nat)
deriving DecidableEq

/-- The generation loop of `generateStreaming` (llama_jni.cpp:338-399).
It differs from `bLoop` in the stop check (plain containment via `rfind`
over the whole accumulated text, no truncation) and in delivery: a
non-empty piece is pushed to the sink only when the stop check did not
hit (a hit clears the piece before the push); after a push a raised Java
exception terminates the loop.  (`NewStringUTF` is modelled as always
succeeding; its failure would only skip one delivery and continue.) -/
def sLoop (env : Env) (stops : List (List Char)) :
    Nat → Nat → List Nat → List Char → STrace
  | 0, _, _, acc => ⟨acc, [], .budget, [], []⟩
  | fuel + 1, i, hist, acc =>
    if env.cancelled i then ⟨acc, [], .cancelled, [], []⟩
    else
      let t := env.sample samplerSeed hist
      if env.isEog t then ⟨acc, [], .eog, [i], []⟩
      else
        let piece := env.tokenPiece t
        if piece.isEmpty then
          if env.decodeBatch (singleBatch t hist.length) then
            let rest := sLoop env stops fuel (i + 1) (hist ++ [t]) acc
            ⟨rest.text, rest.delivered, rest.reason, i :: rest.steps,
              (t, hist.length) :: rest.evals⟩
          else ⟨acc, [], .evalFail, [i], [(t, hist.length)]⟩
        else
          let acc2 := acc ++ piece
          if stopFoundS stops acc2 then ⟨acc2, [], .stopMatch, [i], []⟩
          else
            if env.sinkFails i then ⟨acc2, [(acc2, piece)], .sinkFail, [i], []⟩
            else
              if env.decodeBatch (singleBatch t hist.length) then
                let rest := sLoop env stops fuel (i + 1) (hist ++ [t]) acc2
                ⟨rest.text, (acc2, piece) :: rest.delivered, rest.reason,
                  i :: rest.steps, (t, hist.length) :: rest.evals⟩
              else ⟨acc2, [(acc2, piece)], .evalFail, [i], [(t, hist.length)]⟩

/-- Exit paths of `generate`. -/
inductive GenOutcome where
  | noModel
  | tokenizeFail
  | promptEvalFail
  | ran (tr : BTrace)
deriving DecidableEq

/-- `generate` (llama_jni.cpp:115-249) as outcome plus final globals:
model check (an absent model returns "" without touching the flags), then
set `g_is_generating` and clear `g_cancel_generation`, tokenize (negative
count returns ""), clear the KV cache, evaluate the full-prompt batch
(failure returns ""), run the loop, and reset `g_is_generating` on every
path past the model check. -/
def generateRun (s : S) (env : Env) (prompt : List Char) (maxTokens : Nat)
    (stops : List (List Char)) : GenOutcome × S :=
  if s.model && s.ctx then
    let s1 : S := { s with generating := true, cancelFlag := false }
    match env.tokenize prompt with
    | none => (.tokenizeFail, { s1 with generating := false })
    | some toks =>
      if env.decodeBatch (promptBatch toks) then
        (.ran (bLoop env stops maxTokens 0 toks []), { s1 with generating := false })
      else (.promptEvalFail, { s1 with generating := false })
  else (.noModel, s)

/-- The string returned by `generate`: the loop's accumulated text, or ""
on the early exits. -/
def generateText (s : S) (env : Env) (prompt : List Char) (maxTokens : Nat)
    (stops : List (List Char)) : List Char :=
  match (generateRun s env prompt maxTokens stops).1 with
  | .ran tr => tr.text
  | _ => []

/-- The loop trace of a `generate` call; a vacuous empty trace on the
early exits (nothing ran). -/
def genTraceB (s : S) (env : Env) (prompt : List Char) (maxTokens : Nat)
    (stops : List (List Char)) : BTrace :=
  match (generateRun s env prompt maxTokens stops).1 with
  | .ran tr => tr
  | _ => ⟨[], .budget, [], []⟩

/-- Exit paths of `generateStreaming`. -/
inductive SOutcome where
  | noModel
  | callbackFail
  | tokenizeFail
  | promptEvalFail
  | ran (tr : STrace)
deriving DecidableEq

/-- `generateStreaming` (llama_jni.cpp:251-404): model check, set/clear
the flags, look up the `onToken` method (failure resets the generating
flag and returns), tokenize, evaluate the prompt batch, run the streaming
loop; `g_is_generating` is reset on every path past the model check. -/
def generateStreamingRun (s : S) (env : Env) (prompt : List Char) (maxTokens : Nat)
    (stops : List (List Char)) : SOutcome × S :=
  if s.model && s.ctx then
    let s1 : S := { s with generating := true, cancelFlag := false }
    if env.callbackOk = false then (.callbackFail, { s1 with generating := false })
    else
      match env.tokenize prompt with
      | none => (.tokenizeFail, { s1 with generating := false })
      | some toks =>
        if env.decodeBatch (promptBatch toks) then
          (.ran (sLoop env stops maxTokens 0 toks []), { s1 with generating := false })
        else (.promptEvalFail, { s1 with generating := false })
  else (.noModel, s)

/-- The loop trace of a `generateStreaming` call; empty on early exits. -/
def genTraceS (s : S) (env : Env) (prompt : List Char) (maxTokens : Nat)
    (stops : List (List Char)) : STrace :=
  match (generateStreamingRun s env prompt maxTokens stops).1 with
  | .ran tr => tr
  | _ => ⟨[], [], .budget, [], []⟩

/-- The entries `addPromptTokens` produces: one slot per token, positions
counting up from `p`, logits off. -/
def mkEntries : List Nat → Nat → List BatchEntry
  | [], _ => []
  | t :: r, p => ⟨t, p, 1, 0, false⟩ :: mkEntries r (p + 1)

theorem addPromptTokens_eq (toks : List Nat) :
    ∀ (p : Nat) (b : List BatchEntry),
      addPromptTokens toks p b = b ++ mkEntries toks p := by
  induction toks with
  | nil => intro p b; simp [addPromptTokens, mkEntries]
  | cons t r ih =>
    intro p b
    simp [addPromptTokens, mkEntries, batchAddToken, ih]

theorem mkEntries_map_token (toks : List Nat) :
    ∀ p, (mkEntries toks p).map (·.token) = toks := by
  induction toks with
  | nil => intro p; rfl
  | cons t r ih => intro p; simp [mkEntries, ih]

theorem mkEntries_map_pos (toks : List Nat) :
    ∀ p, (mkEntries toks p).map (·.pos) = List.range' p toks.length := by
  induction toks with
  | nil => intro p; rfl
  | cons t r ih => intro p; simp [mkEntries, ih, List.range'_succ]

theorem mkEntries_map_logits (toks : List Nat) :
    ∀ p, (mkEntries toks p).map (·.logits) = List.replicate toks.length false := by
  induction toks with
  | nil => intro p; rfl
  | cons t r ih => intro p; simp [mkEntries, ih, List.replicate_succ]

theorem setLastLogitsTrue_map_token (l : List BatchEntry) :
    (setLastLogitsTrue l).map (·.token) = l.map (·.token) := by
  induction l with
  | nil => rfl
  | cons e rest ih =>
    cases rest with
    | nil => rfl
    | cons e2 r2 => simpa [setLastLogitsTrue] using ih

theorem setLastLogitsTrue_map_pos (l : List BatchEntry) :
    (setLastLogitsTrue l).map (·.pos) = l.map (·.pos) := by
  induction l with
  | nil => rfl
  | cons e rest ih =>
    cases rest with
    | nil => rfl
    | cons e2 r2 => simpa [setLastLogitsTrue] using ih

theorem setLastLogitsTrue_map_logits (l : List BatchEntry)
    (h : l.map (·.logits) = List.replicate l.length false) (hne : l ≠ []) :
    (setLastLogitsTrue l).map (·.logits) =
      List.replicate (l.length - 1) false ++ [true] := by
  induction l with
  | nil => exact absurd rfl hne
  | cons e rest ih =>
    cases rest with
    | nil => simp [setLastLogitsTrue]
    | cons e2 r2 =>
      rw [List.map_cons, List.length_cons, List.replicate_succ] at h
      injection h with h1 h2
      have := ih h2 (by simp)
      simp [setLastLogitsTrue, this, h1, List.replicate_succ]

theorem bLoop_steps_not_cancelled (env : Env) (stops : List (List Char)) (fuel : Nat) :
    ∀ (i : Nat) (hist : List Nat) (acc : List Char),
      ∀ j ∈ (bLoop env stops fuel i hist acc).steps, env.cancelled j = false := by
  induction fuel with
  | zero => intro i hist acc j hj; simp [bLoop] at hj
  | succ f ih =>
    intro i hist acc j hj
    simp only [bLoop] at hj
    split at hj
    · simp at hj
    · split at hj
      · simp at hj; subst hj; simp_all
      · split at hj
        · simp at hj; subst hj; simp_all
        · split at hj
          · simp at hj
            rcases hj with h | h
            · subst h; simp_all
            · exact ih _ _ _ _ h
          · simp at hj; subst hj; simp_all

theorem bLoop_steps_range (env : Env) (stops : List (List Char)) (fuel : Nat) :
    ∀ (i : Nat) (hist : List Nat) (acc : List Char),
      (bLoop env stops fuel i hist acc).steps =
        List.range' i (bLoop env stops fuel i hist acc).steps.length := by
  induction fuel with
  | zero => intro i hist acc; simp [bLoop]
  | succ f ih =>
    intro i hist acc
    simp only [bLoop]
    split
    · simp
    · split
      · simp
      · split
        · simp
        · split
          · dsimp only
            rw [List.length_cons, List.range'_succ, ← ih]
          · simp

theorem bLoop_cancel_reason (env : Env) (stops : List (List Char)) (fuel : Nat) :
    ∀ (i : Nat) (hist : List Nat) (acc : List Char),
      (bLoop env stops fuel i hist acc).reason = .cancelled →
        env.cancelled (i + (bLoop env stops fuel i hist acc).steps.length) = true := by
  induction fuel with
  | zero => intro i hist acc h; simp [bLoop] at h
  | succ f ih =>
    intro i hist acc h
    simp only [bLoop] at h ⊢
    split at h
    · simp_all
    · split at h
      · simp_all
      · split at h
        · simp_all
        · split at h
          · simp only at h
            have := ih (i + 1) _ _ h
            simp_all [Nat.add_assoc, Nat.add_comm 1]
          · simp_all

theorem bLoop_evals_range (env : Env) (stops : List (List Char)) (fuel : Nat) :
    ∀ (i : Nat) (hist : List Nat) (acc : List Char),
      (bLoop env stops fuel i hist acc).evals.map Prod.snd =
        List.range' hist.length (bLoop env stops fuel i hist acc).evals.length := by
  induction fuel with
  | zero => intro i hist acc; simp [bLoop]
  | succ f ih =>
    intro i hist acc
    simp only [bLoop]
    split
    · simp
    · split
      · simp
      · split
        · simp
        · split
          · dsimp only
            rw [List.map_cons, List.length_cons, List.range'_succ]
            have := ih (i + 1) (hist ++ [env.sample samplerSeed hist])
              (if (env.tokenPiece (env.sample samplerSeed hist)).isEmpty = true then acc
                else acc ++ env.tokenPiece (env.sample samplerSeed hist))
            simp only [List.length_append, List.length_cons, List.length_nil] at this
            rw [this]
          · simp

theorem bLoop_sample_congr (env : Env) (g : Nat → List Nat → Nat)
    (h : g samplerSeed = env.sample samplerSeed) (stops : List (List Char)) (fuel : Nat) :
    ∀ (i : Nat) (hist : List Nat) (acc : List Char),
      bLoop { env with sample := g } stops fuel i hist acc =
        bLoop env stops fuel i hist acc := by
  induction fuel with
  | zero => intro i hist acc; rfl
  | succ f ih =>
    intro i hist acc
    have hs : ∀ hs', g samplerSeed hs' = env.sample samplerSeed hs' :=
      fun hs' => congrFun h hs'
    simp only [bLoop, hs, ih]

theorem sLoop_sample_congr (env : Env) (g : Nat → List Nat → Nat)
    (h : g samplerSeed = env.sample samplerSeed) (stops : List (List Char)) (fuel : Nat) :
    ∀ (i : Nat) (hist : List Nat) (acc : List Char),
      sLoop { env with sample := g } stops fuel i hist acc =
        sLoop env stops fuel i hist acc := by
  induction fuel with
  | zero => intro i hist acc; rfl
  | succ f ih =>
    intro i hist acc
    have hs : ∀ hs', g samplerSeed hs' = env.sample samplerSeed hs' :=
      fun hs' => congrFun h hs'
    simp only [sLoop, hs, ih]

theorem sLoop_delivered_clean (env : Env) (stops : List (List Char)) (fuel : Nat) :
    ∀ (i : Nat) (hist : List Nat) (acc : List Char),
      ∀ pr ∈ (sLoop env stops fuel i hist acc).delivered,
        pr.2 ≠ [] ∧ stopFoundS stops pr.1 = false := by
  induction fuel with
  | zero => intro i hist acc pr hp; simp [sLoop] at hp
  | succ f ih =>
    intro i hist acc pr hp
    simp only [sLoop] at hp
    split at hp
    · simp at hp
    · split at hp
      · simp at hp
      · split at hp
        · split at hp
          · simp at hp
            exact ih _ _ _ _ hp
          · simp at hp
        · split at hp
          · simp at hp
          · split at hp
            · simp at hp
              subst hp
              refine ⟨?_, ?_⟩ <;> simp_all
            · split at hp
              · simp at hp
                rcases hp with hp | hp
                · subst hp
                  refine ⟨?_, ?_⟩ <;> simp_all
                · exact ih _ _ _ _ hp
              · simp at hp
                subst hp
                refine ⟨?_, ?_⟩ <;> simp_all

theorem sLoop_stop_text (env : Env) (stops : List (List Char)) (fuel : Nat) :
    ∀ (i : Nat) (hist : List Nat) (acc : List Char),
      (sLoop env stops fuel i hist acc).reason = .stopMatch →
        stopFoundS stops (sLoop env stops fuel i hist acc).text = true := by
  induction fuel with
  | zero => intro i hist acc h; simp [sLoop] at h
  | succ f ih =>
    intro i hist acc h
    simp only [sLoop] at h ⊢
    split at h
    · simp_all
    · split at h
      · simp_all
      · split at h
        · split at h
          · have := ih _ _ _ h
            simp_all
          · simp_all
        · split at h
          · simp_all
          · split at h
            · simp_all
            · split at h
              · have := ih _ _ _ h
                simp_all
              · simp_all

theorem sLoop_steps_not_cancelled (env : Env) (stops : List (List Char)) (fuel : Nat) :
    ∀ (i : Nat) (hist : List Nat) (acc : List Char),
      ∀ j ∈ (sLoop env stops fuel i hist acc).steps, env.cancelled j = false := by
  induction fuel with
  | zero => intro i hist acc j hj; simp [sLoop] at hj
  | succ f ih =>
    intro i hist acc j hj
    simp only [sLoop] at hj
    split at hj
    · simp at hj
    · split at hj
      · simp at hj; subst hj; simp_all
      · split at hj
        · split at hj
          · simp at hj
            rcases hj with hj | hj
            · subst hj; simp_all
            · exact ih _ _ _ _ hj
          · simp at hj; subst hj; simp_all
        · split at hj
          · simp at hj; subst hj; simp_all
          · split at hj
            · simp at hj; subst hj; simp_all
            · split at hj
              · simp at hj
                rcases hj with hj | hj
                · subst hj; simp_all
                · exact ih _ _ _ _ hj
              · simp at hj; subst hj; simp_all

theorem sLoop_steps_range (env : Env) (stops : List (List Char)) (fuel : Nat) :
    ∀ (i : Nat) (hist : List Nat) (acc : List Char),
      (sLoop env stops fuel i hist acc).steps =
        List.range' i (sLoop env stops fuel i hist acc).steps.length := by
  induction fuel with
  | zero => intro i hist acc; simp [sLoop]
  | succ f ih =>
    intro i hist acc
    simp only [sLoop]
    split
    · simp
    · split
      · simp
      · split
        · split
          · dsimp only
            rw [List.length_cons, List.range'_succ, ← ih]
          · simp
        · split
          · simp
          · split
            · simp
            · split
              · dsimp only
                rw [List.length_cons, List.range'_succ, ← ih]
              · simp

theorem genTraceB_cases (s : S) (env : Env) (p : List Char) (mt : Nat)
    (stops : List (List Char)) :
    (genTraceB s env p mt stops = ⟨[], .budget, [], []⟩ ∧
      generateText s env p mt stops = []) ∨
    ∃ toks, (s.model && s.ctx) = true ∧ env.tokenize p = some toks ∧
      genTraceB s env p mt stops = bLoop env stops mt 0 toks [] ∧
      generateText s env p mt stops = (bLoop env stops mt 0 toks []).text := by
  by_cases hm : (s.model && s.ctx) = true
  · cases htok : env.tokenize p with
    | none => left; simp [genTraceB, generateText, generateRun, hm, htok]
    | some toks =>
      by_cases hd : env.decodeBatch (promptBatch toks) = true
      · right
        refine ⟨toks, hm, rfl, ?_, ?_⟩ <;>
          simp [genTraceB, generateText, generateRun, hm, htok, hd]
      · left; simp [genTraceB, generateText, generateRun, hm, htok, hd]
  · left; simp [genTraceB, generateText, generateRun, hm]

theorem genTraceS_cases (s : S) (env : Env) (p : List Char) (mt : Nat)
    (stops : List (List Char)) :
    genTraceS s env p mt stops = ⟨[], [], .budget, [], []⟩ ∨
    ∃ toks, (s.model && s.ctx) = true ∧ env.tokenize p = some toks ∧
      genTraceS s env p mt stops = sLoop env stops mt 0 toks [] := by
  by_cases hm : (s.model && s.ctx) = true
  · by_cases hcb : env.callbackOk = true
    · cases htok : env.tokenize p with
      | none => left; simp [genTraceS, generateStreamingRun, hm, hcb, htok]
      | some toks =>
        by_cases hd : env.decodeBatch (promptBatch toks) = true
        · right
          exact ⟨toks, hm, rfl, by
            simp [genTraceS, generateStreamingRun, hm, hcb, htok, hd]⟩
        · left; simp [genTraceS, generateStreamingRun, hm, hcb, htok, hd]
    · left; simp [genTraceS, generateStreamingRun, hm, hcb]
  · left; simp [genTraceS, generateStreamingRun, hm]

theorem generateRun_state (s : S) (env : Env) (p : List Char) (mt : Nat)
    (stops : List (List Char)) :
    (generateRun s env p mt stops).2.model = s.model ∧
    (generateRun s env p mt stops).2.ctx = s.ctx ∧
    (generateRun s env p mt stops).2.progress = s.progress := by
  by_cases hm : (s.model && s.ctx) = true
  · cases htok : env.tokenize p with
    | none => simp [generateRun, hm, htok]
    | some toks =>
      by_cases hd : env.decodeBatch (promptBatch toks) = true <;>
        simp [generateRun, hm, htok, hd]
  · simp [generateRun, hm]

theorem generateStreamingRun_state (s : S) (env : Env) (p : List Char) (mt : Nat)
    (stops : List (List Char)) :
    (generateStreamingRun s env p mt stops).2.model = s.model ∧
    (generateStreamingRun s env p mt stops).2.ctx = s.ctx ∧
    (generateStreamingRun s env p mt stops).2.progress = s.progress := by
  by_cases hm : (s.model && s.ctx) = true
  · by_cases hcb : env.callbackOk = true
    · cases htok : env.tokenize p with
      | none => simp [generateStreamingRun, hm, hcb, htok]
      | some toks =>
        by_cases hd : env.decodeBatch (promptBatch toks) = true <;>
          simp [generateStreamingRun, hm, hcb, htok, hd]
    · simp [generateStreamingRun, hm, hcb]
  · simp [generateStreamingRun, hm]

theorem generateRun_generating_loaded (s : S) (env : Env) (p : List Char) (mt : Nat)
    (stops : List (List Char)) (h : (s.model && s.ctx) = true) :
    (generateRun s env p mt stops).2.generating = false := by
  cases htok : env.tokenize p with
  | none => simp [generateRun, h, htok]
  | some toks =>
    by_cases hd : env.decodeBatch (promptBatch toks) = true <;>
      simp [generateRun, h, htok, hd]

theorem generateStreamingRun_generating_loaded (s : S) (env : Env) (p : List Char)
    (mt : Nat) (stops : List (List Char)) (h : (s.model && s.ctx) = true) :
    (generateStreamingRun s env p mt stops).2.generating = false := by
  by_cases hcb : env.callbackOk = true
  · cases htok : env.tokenize p with
    | none => simp [generateStreamingRun, h, hcb, htok]
    | some toks =>
      by_cases hd : env.decodeBatch (promptBatch toks) = true <;>
        simp [generateStreamingRun, h, hcb, htok, hd]
  · simp [generateStreamingRun, h, hcb]

theorem generateRun_noModel (s : S) (env : Env) (p : List Char) (mt : Nat)
    (stops : List (List Char)) (h : ¬((s.model && s.ctx) = true)) :
    generateRun s env p mt stops = (.noModel, s) := by
  simp [generateRun, h]

theorem generateStreamingRun_noModel (s : S) (env : Env) (p : List Char) (mt : Nat)
    (stops : List (List Char)) (h : ¬((s.model && s.ctx) = true)) :
    generateStreamingRun s env p mt stops = (.noModel, s) := by
  simp [generateStreamingRun, h]

theorem sLoop_cancel_reason (env : Env) (stops : List (List Char)) (fuel : Nat) :
    ∀ (i : Nat) (hist : List Nat) (acc : List Char),
      (sLoop env stops fuel i hist acc).reason = .cancelled →
        env.cancelled (i + (sLoop env stops fuel i hist acc).steps.length) = true := by
  induction fuel with
  | zero => intro i hist acc h; simp [sLoop] at h
  | succ f ih =>
    intro i hist acc h
    simp only [sLoop] at h ⊢
    split at h
    · simp_all
    · split at h
      · simp_all
      · split at h
        · split at h
          · have := ih _ _ _ h
            simp_all [Nat.add_assoc, Nat.add_comm 1]
          · simp_all
        · split at h
          · simp_all
          · split at h
            · simp_all
            · split at h
              · have := ih _ _ _ h
                simp_all [Nat.add_assoc, Nat.add_comm 1]
              · simp_all

theorem mkEntries_length (toks : List Nat) :
    ∀ p, (mkEntries toks p).length = toks.length := by
  induction toks with
  | nil => intro p; rfl
  | cons t r ih => intro p; simp [mkEntries, ih]

/- Concrete states and environments used by the witnesses and
counterexamples below. -/

/-- A loaded engine state (model and context present, progress 1). -/
def sLoaded : S := ⟨true, true, false, false, 1⟩

/-- A fresh engine state (nothing loaded). -/
def sEmpty : S := ⟨false, false, false, false, 0⟩

/-- A benign world: tokenization yields one token, every decode succeeds,
every sampled token decodes to the piece "hi", no end-of-generation, no
cancel, no sink failure. -/
def envBase : Env :=
  ⟨fun _ => some [0], fun _ => true, fun _ _ => 3, fun _ => false,
    fun _ => ['h', 'i'], fun _ => false, fun _ => false, true⟩

/-- A world whose model emits the single-character piece "!" at every step. -/
def envBang : Env := { envBase with sample := fun _ _ => 1, tokenPiece := fun _ => ['!'] }

/-- A world in which the cancel flag is observed set from step 1 on. -/
def envCancel : Env := { envBase with cancelled := fun i => decide (1 ≤ i) }

/-- A world with a two-token prompt in which every singleton decode fails
(only batches of at least two tokens succeed). -/
def envEvalFail : Env :=
  { envBase with tokenize := fun _ => some [0, 1]
                 decodeBatch := fun b => decide (2 ≤ b.length) }

/-- A sampler function that agrees with `envBase.sample` at seed 42 and
differs everywhere else. -/
def gSeed : Nat → List Nat → Nat := fun sd _ => if sd = 42 then 3 else 9

/-- Outcome of a load whose weights load fully (progress reported up to 1)
but whose context construction fails. -/
def oCtxFail : LoadOutcome := ⟨true, [1], true, false⟩

/-- Outcome of a fully successful load. -/
def oGood : LoadOutcome := ⟨true, [1], true, true⟩

/-- Claim C1 (code bug, llama_jni.cpp:219).  The claim says a configured
stop string appearing in the accumulated text terminates generation and
the returned text never has the stop as a suffix.  The code computes the
search start `result.length() - stop.length() - 1` in size_t, which wraps
around when the accumulated text has exactly the stop's length, so the
match is missed: with stop "!" and the model emitting the single piece
"!", `stopHitB` reports no hit although `cRfind` shows the stop occurs at
position 0, the run ends by budget, and the returned text is "!" — which
ends with the stop string. -/
theorem c1_stop_string_missed :
    stopHitB ['!'] ['!'] = false ∧
    cRfind ['!'] ['!'] = some 0 ∧
    generateText sLoaded envBang ['h'] 1 [['!']] = ['!'] ∧
    (genTraceB sLoaded envBang ['h'] 1 [['!']]).reason = .budget := by
  decide

/-- Claim C2, counterexample.  After a failed load (context construction
fails after the weights loaded with progress reported up to 1), the call
returns false but `getLoadProgress` returns 1, not 0: the code never
resets the progress on a failure path (the only store of 0 is at the
start of `loadModel`, llama_jni.cpp:75). -/
theorem c2_progress_counterexample :
    (loadModel sLoaded oCtxFail).1 = false ∧
    getLoadProgress (loadModel sLoaded oCtxFail).2 ≠ 0 := by
  decide

/-- Claim C2, amended.  After every failed `loadModel` call (weight-load
failure or context-construction failure) `isModelLoaded()` returns false
and a subsequent `loadModel` on a valid path succeeds, but
`getLoadProgress()` returns the last fraction the progress callback
reported during the failed attempt (0 only when none was reported), not
necessarily 0. -/
theorem c2_failed_load :
    ∀ (s : S) (o : LoadOutcome), o.pathOk = true →
      (o.weightsOk = false ∨ o.ctxOk = false) →
      (loadModel s o).1 = false ∧
      isModelLoaded (loadModel s o).2 = false ∧
      getLoadProgress (loadModel s o).2 = lastReport o.reports ∧
      ∀ o2 : LoadOutcome, o2.pathOk = true → o2.weightsOk = true → o2.ctxOk = true →
        (loadModel (loadModel s o).2 o2).1 = true ∧
        isModelLoaded (loadModel (loadModel s o).2 o2).2 = true := by
  intro s o hp hfail
  by_cases hw : o.weightsOk = false
  · refine ⟨?_, ?_, ?_, ?_⟩
    · simp [loadModel, hp, hw]
    · simp [loadModel, isModelLoaded, hp, hw]
    · simp [loadModel, getLoadProgress, hp, hw]
    · intro o2 h1 h2 h3
      constructor
      · simp [loadModel, hp, hw, h1, h2, h3]
      · simp [loadModel, isModelLoaded, hp, hw, h1, h2, h3]
  · have hw' : o.weightsOk = true := by simpa using hw
    have hc : o.ctxOk = false := by
      rcases hfail with h | h
      · exact absurd h hw
      · exact h
    refine ⟨?_, ?_, ?_, ?_⟩
    · simp [loadModel, hp, hw', hc]
    · simp [loadModel, isModelLoaded, hp, hw', hc]
    · simp [loadModel, getLoadProgress, hp, hw', hc]
    · intro o2 h1 h2 h3
      constructor
      · simp [loadModel, hp, hw', hc, h1, h2, h3]
      · simp [loadModel, isModelLoaded, hp, hw', hc, h1, h2, h3]

/-- Witness for `c2_failed_load` at a concrete failed load. -/
theorem c2_failed_load_witness :
    (loadModel sLoaded oCtxFail).1 = false ∧
    isModelLoaded (loadModel sLoaded oCtxFail).2 = false ∧
    getLoadProgress (loadModel sLoaded oCtxFail).2 = lastReport oCtxFail.reports ∧
    (loadModel (loadModel sLoaded oCtxFail).2 oGood).1 = true := by
  have h := c2_failed_load sLoaded oCtxFail rfl (Or.inr rfl)
  exact ⟨h.1, h.2.1, h.2.2.1, (h.2.2.2 oGood rfl rfl rfl).1⟩

/-- Claim C3.  Both generation variants seed the terminal categorical
draw with the hard-coded constant `samplerSeed = 42`
(`llama_sampler_init_dist(42)` at llama_jni.cpp:187 and 333).  The run
depends on the sampler function only through its behaviour at that seed:
replacing the sampler by any function that agrees at seed 42 leaves both
runs unchanged.  Since the embedding of a call is a pure function of the
state, the environment and the arguments, two calls of the same variant
with the same loaded model, prompt, maxTokens, sampling parameters and
stop strings produce the identical token sequence and output text. -/
theorem c3_fixed_seed_determinism :
    ∀ (s : S) (env : Env) (g : Nat → List Nat → Nat) (p : List Char) (mt : Nat)
      (stops : List (List Char)),
      g samplerSeed = env.sample samplerSeed →
      samplerSeed = 42 ∧
      generateRun s { env with sample := g } p mt stops =
        generateRun s env p mt stops ∧
      generateStreamingRun s { env with sample := g } p mt stops =
        generateStreamingRun s env p mt stops := by
  intro s env g p mt stops h
  refine ⟨rfl, ?_, ?_⟩
  · simp only [generateRun, bLoop_sample_congr env g h]
  · simp only [generateStreamingRun, sLoop_sample_congr env g h]

/-- Witness for `c3_fixed_seed_determinism` at a concrete sampler pair. -/
theorem c3_fixed_seed_determinism_witness :
    samplerSeed = 42 ∧
    generateRun sLoaded { envBase with sample := gSeed } ['h'] 2 [] =
      generateRun sLoaded envBase ['h'] 2 [] := by
  have h := c3_fixed_seed_determinism sLoaded envBase gSeed ['h'] 2 []
    (by funext hs; simp [gSeed, samplerSeed, envBase])
  exact ⟨h.1, h.2.1⟩

/-- Claim C4.  In both variants the steps that began are exactly
`0, 1, …, k-1` for some `k` (so once the cancel flag is observed set at a
step boundary no further step begins — no sampling, no decoding, no
evaluation), every step that began observed the flag as false, and when
the run terminated because of cancellation the poll at boundary `k`
observed the flag as true and the buffering call returns exactly the text
accumulated so far (a partial result, not an error). -/
theorem c4_cancellation :
    ∀ (s : S) (env : Env) (p : List Char) (mt : Nat) (stops : List (List Char)),
      (genTraceB s env p mt stops).steps =
        List.range (genTraceB s env p mt stops).steps.length ∧
      (∀ j ∈ (genTraceB s env p mt stops).steps, env.cancelled j = false) ∧
      ((genTraceB s env p mt stops).reason = .cancelled →
        env.cancelled (genTraceB s env p mt stops).steps.length = true ∧
        generateText s env p mt stops = (genTraceB s env p mt stops).text) ∧
      (genTraceS s env p mt stops).steps =
        List.range (genTraceS s env p mt stops).steps.length ∧
      (∀ j ∈ (genTraceS s env p mt stops).steps, env.cancelled j = false) ∧
      ((genTraceS s env p mt stops).reason = .cancelled →
        env.cancelled (genTraceS s env p mt stops).steps.length = true) := by
  intro s env p mt stops
  refine ⟨?_, ?_, ?_, ?_, ?_, ?_⟩
  · rcases genTraceB_cases s env p mt stops with ⟨hb, _⟩ | ⟨toks, _, _, hb, _⟩
    · rw [hb]; rfl
    · rw [hb, List.range_eq_range']
      exact bLoop_steps_range env stops mt 0 toks []
  · rcases genTraceB_cases s env p mt stops with ⟨hb, _⟩ | ⟨toks, _, _, hb, _⟩
    · rw [hb]; intro j hj; simp at hj
    · rw [hb]; exact bLoop_steps_not_cancelled env stops mt 0 toks []
  · rcases genTraceB_cases s env p mt stops with ⟨hb, ht⟩ | ⟨toks, _, _, hb, ht⟩
    · rw [hb]; intro h; exact absurd h (by decide)
    · rw [hb, ht]
      intro h
      refine ⟨?_, rfl⟩
      simpa using bLoop_cancel_reason env stops mt 0 toks [] h
  · rcases genTraceS_cases s env p mt stops with hs | ⟨toks, _, _, hs⟩
    · rw [hs]; rfl
    · rw [hs, List.range_eq_range']
      exact sLoop_steps_range env stops mt 0 toks []
  · rcases genTraceS_cases s env p mt stops with hs | ⟨toks, _, _, hs⟩
    · rw [hs]; intro j hj; simp at hj
    · rw [hs]; exact sLoop_steps_not_cancelled env stops mt 0 toks []
  · rcases genTraceS_cases s env p mt stops with hs | ⟨toks, _, _, hs⟩
    · rw [hs]; intro h; exact absurd h (by decide)
    · rw [hs]
      intro h
      simpa using sLoop_cancel_reason env stops mt 0 toks [] h

/-- Witness for `c4_cancellation`: with the flag observed set from step 1
on, step 0 ran with the flag observed false, the run terminated by
cancellation, the poll at the boundary after the last begun step observed
true, and the call returned the accumulated text. -/
theorem c4_cancellation_witness :
    envCancel.cancelled 0 = false ∧
    envCancel.cancelled ((genTraceB sLoaded envCancel ['h'] 3 []).steps.length) = true ∧
    generateText sLoaded envCancel ['h'] 3 [] =
      (genTraceB sLoaded envCancel ['h'] 3 []).text := by
  have h := c4_cancellation sLoaded envCancel ['h'] 3 []
  have hc := h.2.2.1 (by decide)
  exact ⟨h.2.1 0 (by decide), hc.1, hc.2⟩

/-- Claim C5.  In the streaming variant every fragment delivered to the
sink is non-empty and, at the moment of its delivery, the accumulated
text (which already contains the fragment) satisfies no configured stop
string — so a fragment that completes a stop-string match is never
delivered; and when the loop terminated on a stop match the final
accumulated text does contain a stop string (the completing fragment was
suppressed and the loop stopped there). -/
theorem c5_streaming_stop_suppression :
    ∀ (s : S) (env : Env) (p : List Char) (mt : Nat) (stops : List (List Char)),
      (∀ pr ∈ (genTraceS s env p mt stops).delivered,
        pr.2 ≠ [] ∧ stopFoundS stops pr.1 = false) ∧
      ((genTraceS s env p mt stops).reason = .stopMatch →
        stopFoundS stops (genTraceS s env p mt stops).text = true) := by
  intro s env p mt stops
  rcases genTraceS_cases s env p mt stops with hs | ⟨toks, _, _, hs⟩
  · rw [hs]
    constructor
    · intro pr hp; simp at hp
    · intro h; exact absurd h (by decide)
  · rw [hs]
    exact ⟨sLoop_delivered_clean env stops mt 0 toks [],
      sLoop_stop_text env stops mt 0 toks []⟩

/-- Witness for `c5_streaming_stop_suppression`: a concrete delivered
fragment ("hi", with stop "#" absent) and a concrete stop-terminated run
(stop "hih", completed at the second step and suppressed). -/
theorem c5_streaming_stop_suppression_witness :
    ((['h', 'i'], ['h', 'i']) : List Char × List Char).2 ≠ [] ∧
    stopFoundS [['#']] ['h', 'i'] = false ∧
    stopFoundS [['h', 'i', 'h']]
      (genTraceS sLoaded envBase ['h'] 2 [['h', 'i', 'h']]).text = true := by
  have h1 := (c5_streaming_stop_suppression sLoaded envBase ['h'] 1 [['#']]).1
    (⟨['h', 'i'], ['h', 'i']⟩) (by decide)
  have h2 := (c5_streaming_stop_suppression sLoaded envBase ['h'] 2 [['h', 'i', 'h']]).2
    (by decide)
  exact ⟨h1.1, h1.2, h2⟩

/-- Claim C6.  When the singleton evaluation of a sampled token fails the
buffering call terminates and returns exactly the text accumulated up to
the failure (including the piece of the token whose evaluation failed) —
a partial result, not an error and not a discarded buffer — and the model
and context handles, the load progress, and the generating flag leave the
engine loaded and usable for subsequent requests. -/
theorem c6_eval_failure_recovery :
    ∀ (s : S) (env : Env) (p : List Char) (mt : Nat) (stops : List (List Char)),
      (genTraceB s env p mt stops).reason = .evalFail →
      generateText s env p mt stops = (genTraceB s env p mt stops).text ∧
      isModelLoaded (generateRun s env p mt stops).2 = isModelLoaded s ∧
      getLoadProgress (generateRun s env p mt stops).2 = getLoadProgress s ∧
      isGenerating (generateRun s env p mt stops).2 = false := by
  intro s env p mt stops h
  have hst := generateRun_state s env p mt stops
  rcases genTraceB_cases s env p mt stops with ⟨hb, _⟩ | ⟨toks, hm, _, hb, ht⟩
  · rw [hb] at h; exact absurd h (by decide)
  · refine ⟨by rw [ht, hb], ?_, ?_, ?_⟩
    · rw [isModelLoaded, isModelLoaded, hst.1, hst.2.1]
    · rw [getLoadProgress, getLoadProgress, hst.2.2]
    · rw [isGenerating]
      exact generateRun_generating_loaded s env p mt stops hm

/-- Witness for `c6_eval_failure_recovery` at a concrete run whose first
singleton evaluation fails after decoding the piece "hi". -/
theorem c6_eval_failure_recovery_witness :
    generateText sLoaded envEvalFail ['h'] 3 [] =
      (genTraceB sLoaded envEvalFail ['h'] 3 []).text ∧
    isModelLoaded (generateRun sLoaded envEvalFail ['h'] 3 []).2 =
      isModelLoaded sLoaded ∧
    getLoadProgress (generateRun sLoaded envEvalFail ['h'] 3 []).2 =
      getLoadProgress sLoaded ∧
    isGenerating (generateRun sLoaded envEvalFail ['h'] 3 []).2 = false :=
  c6_eval_failure_recovery sLoaded envEvalFail ['h'] 3 [] (by decide)

/-- Claim C7.  The full-prompt batch holds exactly the prompt tokens at
sequential positions `0 … N-1` with the emit-logits flag set only on the
final entry; every singleton batch built for a newly generated token is
`[⟨token, position, 1, 0, true⟩]` (emit-logits set); and in any buffering
run the positions of the singleton batches submitted are consecutive
starting at the prompt length (prompt length plus tokens generated so
far). -/
theorem c7_batch_construction :
    ∀ (toks : List Nat) (s : S) (env : Env) (p : List Char) (mt : Nat)
      (stops : List (List Char)),
      toks ≠ [] → env.tokenize p = some toks →
      (promptBatch toks).map (·.token) = toks ∧
      (promptBatch toks).map (·.pos) = List.range toks.length ∧
      (promptBatch toks).map (·.logits) =
        List.replicate (toks.length - 1) false ++ [true] ∧
      (∀ t q, singleBatch t q = [⟨t, q, 1, 0, true⟩]) ∧
      (genTraceB s env p mt stops).evals.map Prod.snd =
        List.range' toks.length ((genTraceB s env p mt stops).evals.length) := by
  intro toks s env p mt stops hne htok
  have hmk := addPromptTokens_eq toks 0 []
  rw [List.nil_append] at hmk
  have hmkne : mkEntries toks 0 ≠ [] := by
    cases toks with
    | nil => exact absurd rfl hne
    | cons t r => simp [mkEntries]
  refine ⟨?_, ?_, ?_, fun t q => rfl, ?_⟩
  · rw [promptBatch, hmk, setLastLogitsTrue_map_token, mkEntries_map_token]
  · rw [promptBatch, hmk, setLastLogitsTrue_map_pos, mkEntries_map_pos,
      List.range_eq_range']
  · rw [promptBatch, hmk,
      setLastLogitsTrue_map_logits (mkEntries toks 0)
        (by rw [mkEntries_map_logits, mkEntries_length]) hmkne,
      mkEntries_length]
  · rcases genTraceB_cases s env p mt stops with ⟨hb, _⟩ | ⟨toks2, _, htok2, hb, _⟩
    · rw [hb]; rfl
    · rw [htok] at htok2
      have heq : toks2 = toks := by injection htok2 with h; exact h.symm
      rw [heq] at hb
      rw [hb]
      simpa using bLoop_evals_range env stops mt 0 toks []

/-- Witness for `c7_batch_construction` at the two-token prompt `[0, 1]`. -/
theorem c7_batch_construction_witness :
    (promptBatch [0, 1]).map (·.token) = [0, 1] ∧
    (promptBatch [0, 1]).map (·.pos) = List.range 2 ∧
    (promptBatch [0, 1]).map (·.logits) = List.replicate 1 false ++ [true] ∧
    (genTraceB sLoaded envEvalFail ['h'] 3 []).evals.map Prod.snd =
      List.range' 2 ((genTraceB sLoaded envEvalFail ['h'] 3 []).evals.length) := by
  have h := c7_batch_construction [0, 1] sLoaded envEvalFail ['h'] 3 []
    (by decide) rfl
  exact ⟨h.1, h.2.1, h.2.2.1, h.2.2.2.2⟩

/-- Claim C8.  `unloadModel` is idempotent (a second call changes
nothing), after any `unloadModel` call `isModelLoaded()` is false and
`getLoadProgress()` is 0, and when nothing is loaded (and the progress is
already 0, as every unload or failed fresh load leaves it) the call is a
complete no-op on the state rather than an error. -/
theorem c8_unload_idempotent :
    ∀ s : S,
      unloadModel (unloadModel s) = unloadModel s ∧
      isModelLoaded (unloadModel s) = false ∧
      getLoadProgress (unloadModel s) = 0 ∧
      (s.model = false → s.ctx = false → s.progress = 0 → unloadModel s = s) := by
  intro s
  refine ⟨rfl, rfl, rfl, ?_⟩
  intro h1 h2 h3
  cases s
  simp_all [unloadModel]

/-- Witness for `c8_unload_idempotent` at the empty state. -/
theorem c8_unload_idempotent_witness :
    unloadModel sEmpty = sEmpty ∧ isModelLoaded (unloadModel sEmpty) = false :=
  ⟨(c8_unload_idempotent sEmpty).2.2.2 rfl rfl rfl, (c8_unload_idempotent sEmpty).2.1⟩

/-- Claim C9.  Both `generate` and `generateStreaming` store false into
the cancel flag at entry, right after the lock is taken and a model is
verified present (llama_jni.cpp:133 and 270).  Hence a `cancelGeneration`
issued beforehand (while no generation is in flight) has no effect on the
next request: the whole call — outcome, output and final state — is the
same whether or not the flag was set at entry.  Only the values of the
flag observed at the per-step polls (the `Env.cancelled` observations,
i.e. cancels arriving after the flag was cleared) can terminate the run. -/
theorem c9_cancel_cleared_at_entry :
    ∀ (s : S) (env : Env) (p : List Char) (mt : Nat) (stops : List (List Char)),
      isModelLoaded s = true →
      generateRun (cancelGeneration s) env p mt stops =
        generateRun s env p mt stops ∧
      generateStreamingRun (cancelGeneration s) env p mt stops =
        generateStreamingRun s env p mt stops := by
  intro s env p mt stops h
  rw [isModelLoaded] at h
  constructor
  · simp [generateRun, cancelGeneration, h]
  · simp [generateStreamingRun, cancelGeneration, h]

/-- Witness for `c9_cancel_cleared_at_entry` at a loaded state. -/
theorem c9_cancel_cleared_at_entry_witness :
    generateRun (cancelGeneration sLoaded) envBase ['h'] 2 [] =
      generateRun sLoaded envBase ['h'] 2 [] :=
  (c9_cancel_cleared_at_entry sLoaded envBase ['h'] 2 [] rfl).1

/-- Claim C10.  On every exit path of `generate` and `generateStreaming`
past the model check the generating flag is stored false (tokenization
failure, missing callback method, prompt-evaluation failure, and every
loop exit: cancellation, end-of-generation, stop match, sink failure,
singleton-evaluation failure, budget exhausted), so when a model is
loaded `isGenerating()` is false after the call returns; on the
model-absent path the flag is untouched, so it is false after the call
whenever it was false at entry — which the lock-serialization of requests
guarantees. -/
theorem c10_generating_reset :
    ∀ (s : S) (env : Env) (p : List Char) (mt : Nat) (stops : List (List Char)),
      (isModelLoaded s = true →
        isGenerating (generateRun s env p mt stops).2 = false ∧
        isGenerating (generateStreamingRun s env p mt stops).2 = false) ∧
      (isGenerating s = false →
        isGenerating (generateRun s env p mt stops).2 = false ∧
        isGenerating (generateStreamingRun s env p mt stops).2 = false) := by
  intro s env p mt stops
  constructor
  · intro h
    rw [isModelLoaded] at h
    constructor
    · rw [isGenerating]
      exact generateRun_generating_loaded s env p mt stops h
    · rw [isGenerating]
      exact generateStreamingRun_generating_loaded s env p mt stops h
  · intro h
    by_cases hm : (s.model && s.ctx) = true
    · constructor
      · rw [isGenerating]
        exact generateRun_generating_loaded s env p mt stops hm
      · rw [isGenerating]
        exact generateStreamingRun_generating_loaded s env p mt stops hm
    · rw [generateRun_noModel s env p mt stops hm,
        generateStreamingRun_noModel s env p mt stops hm]
      exact ⟨h, h⟩

/-- Witness for `c10_generating_reset` at a loaded, idle state. -/
theorem c10_generating_reset_witness :
    isGenerating (generateRun sLoaded envBase ['h'] 2 []).2 = false ∧
    isGenerating (generateStreamingRun sEmpty envBase ['h'] 2 []).2 = false :=
  ⟨((c10_generating_reset sLoaded envBase ['h'] 2 []).1 rfl).1,
    ((c10_generating_reset sEmpty envBase ['h'] 2 []).2 rfl).2⟩

end NovaLlama
